import Mathlib

/-!
Verification of the QRGenPro core pipeline (QREngine, Presets, BatchWorker)
against its specification.  The Python source is shallowly embedded: pixels are
natural-number RGBA channels, images are row-major pixel lists, the external
collaborators (qrcode renderer, PIL colour parsing, the filesystem, logo
decoding, LANCZOS resampling) are parameters gathered in `Ext`, and the
Pillow compositing primitives used by the source (paste with an alpha mask,
thumbnail size selection) are modelled from Pillow's documented integer
semantics.
-/

set_option autoImplicit false

namespace QRGenPro

/-- Pixel of an RGBA image, one natural number per 8-bit channel. -/
structure Pixel where
  r : Nat
  g : Nat
  b : Nat
  a : Nat
deriving DecidableEq, Repr

/-- Result of PIL ImageColor.getrgb on a colour string: an RGB triple. -/
structure RGB where
  r : Nat
  g : Nat
  b : Nat
deriving DecidableEq, Repr

/-- RGBA image: dimensions plus row-major pixel data, as PIL Image.getdata exposes it. -/
structure Image where
  width : Nat
  height : Nat
  data : List Pixel
deriving DecidableEq, Repr

/-- Pixel access at (x, y), row-major. -/
def Image.pixel (img : Image) (x y : Nat) : Pixel :=
  img.data.getD (y * img.width + x) ⟨0, 0, 0, 0⟩

/-- Models PIL Image.new("RGBA", (w, h), c): a solid image of one colour. -/
def Image.new (w h : Nat) (c : Pixel) : Image :=
  ⟨w, h, List.replicate (w * h) c⟩

/-- Models Image.convert("RGBA") applied to the opaque RGB render: every pixel
    keeps its RGB and becomes fully opaque. -/
def convertRGBA (img : Image) : Image :=
  { img with data := img.data.map fun p => ⟨p.r, p.g, p.b, 255⟩ }

/-- Models Pillow's MULDIV255 macro: tmp = a*b + 128; ((tmp >> 8) + tmp) >> 8. -/
def muldiv255 (a b : Nat) : Nat :=
  let t := a * b + 128
  (t / 256 + t) / 256

/-- Models Pillow's BLEND macro used by paste with a mask value m:
    MULDIV255(dst, 255 - m) + MULDIV255(src, m). -/
def blendChannel (m d s : Nat) : Nat :=
  muldiv255 d (255 - m) + muldiv255 s m

/-- Channel-wise blend of a destination and source pixel under mask value m. -/
def blendPixel (m : Nat) (d s : Pixel) : Pixel :=
  ⟨blendChannel m d.r s.r, blendChannel m d.g s.g,
   blendChannel m d.b s.b, blendChannel m d.a s.a⟩

/-- One destination pixel of Image.paste(src, (px, py), src), the RGBA source
    serving as its own mask (its alpha band), clipped to the destination bounds. -/
def pasteCalc (dst src : Image) (px py : Int) (x y : Nat) : Pixel :=
  if 0 ≤ (x : Int) - px ∧ (x : Int) - px < (src.width : Int) ∧
      0 ≤ (y : Int) - py ∧ (y : Int) - py < (src.height : Int) then
    blendPixel (src.pixel ((x : Int) - px).toNat ((y : Int) - py).toNat).a
      (dst.pixel x y) (src.pixel ((x : Int) - px).toNat ((y : Int) - py).toNat)
  else
    dst.pixel x y

/-- Models PIL Image.paste(src, (px, py), src): alpha-masked paste onto a copy. -/
def pasteMask (dst src : Image) (px py : Int) : Image :=
  ⟨dst.width, dst.height,
    (List.range (dst.width * dst.height)).map fun i =>
      pasteCalc dst src px py (i % dst.width) (i / dst.width)⟩

/-- Ceiling division on naturals. -/
def cdiv (a b : Nat) : Nat := (a + b - 1) / b

/-- Models PIL thumbnail round_aspect in the branch x = round_aspect(y * aspect):
    floor or ceiling of ty*w/h, whichever better approximates the aspect ratio
    (floor on ties, as Python min takes the first argument), then at least 1.
    The keys abs(aspect - n/ty) are compared exactly after scaling by h*ty. -/
def roundAspectWidth (w h ty : Nat) : Nat :=
  let fl := ty * w / h
  let ce := cdiv (ty * w) h
  max (if Nat.dist (w * ty) (fl * h) ≤ Nat.dist (w * ty) (ce * h) then fl else ce) 1

/-- Models PIL round_aspect in the branch y = round_aspect(x / aspect), whose key
    sends 0 to 0 and n to abs(aspect - tx/n); the comparison between the floor
    and ceiling candidates is done exactly by cross-multiplication. -/
def roundAspectHeight (w h tx : Nat) : Nat :=
  let fl := tx * h / w
  let ce := cdiv (tx * h) w
  let keyFlLe :=
    if fl = 0 then true
    else Nat.dist (w * fl) (tx * h) * ce ≤ Nat.dist (w * ce) (tx * h) * fl
  max (if keyFlLe then fl else ce) 1

/-- Size selected by PIL Image.thumbnail((tx, ty)) for a w-by-h image; none models
    the ZeroDivisionError a zero target edge raises (caught by add_logo's handler).
    Aspect comparisons are exact: tx/ty >= w/h iff tx*h >= w*ty. -/
def thumbnailSize (w h tx ty : Nat) : Option (Nat × Nat) :=
  if tx ≥ w ∧ ty ≥ h then some (w, h)
  else if h = 0 then none
  else if ty = 0 then none
  else if tx * h ≥ w * ty then some (roundAspectWidth w h ty, ty)
  else some (tx, roundAspectHeight w h tx)

/-- Arguments the engine passes to the external qrcode library for rendering. -/
structure EncArgs where
  version : Option Nat
  error_correction : Nat
  box_size : Nat
  border : Nat
  content : String
  fill_color : String
  back_color : String

/-- External collaborators of the engine: the filesystem test behind
    os.path.exists, the qrcode renderer (qrcode.QRCode + make_image), PIL
    ImageColor.getrgb, PIL Image.open(...).convert("RGBA") for logos, and the
    LANCZOS resampler used by thumbnail. -/
structure Ext where
  fs : String → Bool
  enc : EncArgs → Image
  getrgb : String → RGB
  load : String → Option Image
  resample : Image → Nat → Nat → Image

/-- Configuration dataclass QRConfig of the source. -/
structure QRConfig where
  content : String
  box_size : Nat
  error_correction : String
  qr_color : String
  bg_color : String
  transparent_bg : Bool
  auto_optimize : Bool
  quiet_zone : Bool
  logo_path : String
deriving DecidableEq, Repr

/-- qrcode.constants.ERROR_CORRECT_L. -/
def ERROR_CORRECT_L : Nat := 1
/-- qrcode.constants.ERROR_CORRECT_M. -/
def ERROR_CORRECT_M : Nat := 0
/-- qrcode.constants.ERROR_CORRECT_Q. -/
def ERROR_CORRECT_Q : Nat := 3
/-- qrcode.constants.ERROR_CORRECT_H. -/
def ERROR_CORRECT_H : Nat := 2

/-- The ERROR_LEVELS dict of the source, as a lookup on its four keys. -/
def ERROR_LEVELS (s : String) : Option Nat :=
  if s = "L - 7% (Fast)" then some ERROR_CORRECT_L
  else if s = "M - 15% (Standard)" then some ERROR_CORRECT_M
  else if s = "Q - 25% (High)" then some ERROR_CORRECT_Q
  else if s = "H - 30% (Maximum)" then some ERROR_CORRECT_H
  else none

/-- Ordinal redundancy tier of a qrcode error-correction constant:
    L (~7%) is tier 1, M (~15%) tier 2, Q (~25%) tier 3, H (~30%) tier 4. -/
def tierOf (ecc : Nat) : Nat :=
  if ecc = ERROR_CORRECT_L then 1
  else if ecc = ERROR_CORRECT_M then 2
  else if ecc = ERROR_CORRECT_Q then 3
  else if ecc = ERROR_CORRECT_H then 4
  else 0

/-- Line 139 of the source: ERROR_LEVELS.get(config.error_correction, ERROR_CORRECT_M). -/
def eccLookup (cfg : QRConfig) : Nat :=
  (ERROR_LEVELS cfg.error_correction).getD ERROR_CORRECT_M

/-- Lines 139-142 of the source: look the tier constant up with fallback M, then,
    when a logo path is set and the file exists, replace it by ERROR_CORRECT_Q
    whenever it compares numerically below ERROR_CORRECT_Q. -/
def resolveEcc (ext : Ext) (cfg : QRConfig) : Nat :=
  let ecc := eccLookup cfg
  if cfg.logo_path ≠ "" ∧ ext.fs cfg.logo_path then
    if ecc < ERROR_CORRECT_Q then ERROR_CORRECT_Q else ecc
  else ecc

/-- Whitespace characters stripped by Python str.strip (the ASCII whitespace set;
    this application's inputs contain no further unicode space characters). -/
def pyIsSpace (c : Char) : Bool :=
  c = ' ' || c = '\t' || c = '\n' || c = '\r' || c = '\x0b' || c = '\x0c'

/-- Models Python str.strip() with no arguments. -/
def pyStrip (s : String) : String :=
  ⟨((s.data.dropWhile pyIsSpace).reverse.dropWhile pyIsSpace).reverse⟩

/-- Python truthiness test `not config.content.strip()`. -/
def isBlank (s : String) : Bool :=
  pyStrip s = ""

/-- Errors generate can raise in the embedding; the source raises
    ValueError("Content cannot be empty") for blank content. -/
inductive GenError where
  | validationError (msg : String)
deriving DecidableEq, Repr

namespace QREngine

/-- Arguments handed to qrcode.QRCode / make_image by generate. -/
def encArgs (cfg : QRConfig) (ecc : Nat) : EncArgs :=
  { version := if cfg.auto_optimize then none else some 4
    error_correction := ecc
    box_size := cfg.box_size
    border := if cfg.quiet_zone then 4 else 1
    content := cfg.content
    fill_color := cfg.qr_color
    back_color := cfg.bg_color }

/-- The opaque RGBA image produced in step 2 of generate: the external render
    converted to RGBA. -/
def renderedImage (ext : Ext) (cfg : QRConfig) : Image :=
  convertRGBA (ext.enc (encArgs cfg (resolveEcc ext cfg)))

/-- Lines 161-183 of the source: replace every pixel within tolerance 0 of the
    configured background colour by fully transparent white, keep the rest. -/
def applyTransparency (bg : RGB) (img : Image) : Image :=
  let tolerance := 0
  { img with data := img.data.map fun p =>
      if Nat.dist p.r bg.r ≤ tolerance ∧ Nat.dist p.g bg.g ≤ tolerance ∧
          Nat.dist p.b bg.b ≤ tolerance then
        ⟨255, 255, 255, 0⟩
      else p }

/-- Logo image after the thumbnail step of add_logo, when add_logo reaches the
    paste: none when the logo fails to load or thumbnail raises. -/
def logoAfterThumb (ext : Ext) (qr : Image) (logo_path : String) : Option Image :=
  match ext.load logo_path with
  | none => none
  | some logo =>
    let m := 22 * min qr.width qr.height / 100
    match thumbnailSize logo.width logo.height m m with
    | none => none
    | some (nw, nh) =>
      some (if nw = logo.width ∧ nh = logo.height then logo else ext.resample logo nw nh)

/-- White opaque pad 8 pixels larger than the thumbnailed logo, with the logo
    pasted at (4, 4) through its own alpha. -/
def logoPad (l2 : Image) : Image :=
  pasteMask (Image.new (l2.width + 8) (l2.height + 8) ⟨255, 255, 255, 255⟩) l2 4 4

/-- Centred paste position ((w - pw) // 2, (h - ph) // 2), Python floor division. -/
def padPos (qrw qrh pw ph : Nat) : Int × Int :=
  (Int.fdiv ((qrw : Int) - (pw : Int)) 2, Int.fdiv ((qrh : Int) - (ph : Int)) 2)

/-- Models QREngine.add_logo: open the logo, thumbnail it to
    int(min(w, h) * 0.22) (which equals 22 * min w h / 100 on image-sized
    inputs), pad it with a 4-pixel white border, paste it centred; every
    failure inside the try block returns the input image unchanged. -/
def add_logo (ext : Ext) (qr_img : Image) (logo_path : String) : Image :=
  match logoAfterThumb ext qr_img logo_path with
  | none => qr_img
  | some l2 =>
    let pad := logoPad l2
    let pos := padPos qr_img.width qr_img.height pad.width pad.height
    pasteMask qr_img pad pos.1 pos.2

/-- Models QREngine.generate: validate content, resolve the error-correction
    constant, render opaquely, strip the background when requested, then add
    the logo when its path is set and exists. -/
def generate (ext : Ext) (cfg : QRConfig) : Except GenError Image :=
  if isBlank cfg.content then
    .error (.validationError "Content cannot be empty")
  else
    let img := renderedImage ext cfg
    let img := if cfg.transparent_bg then applyTransparency (ext.getrgb cfg.bg_color) img else img
    let img :=
      if cfg.logo_path ≠ "" ∧ ext.fs cfg.logo_path then add_logo ext img cfg.logo_path
      else img
    .ok img

end QREngine

namespace Presets

/-- Models Presets.wifi: requires a non-empty SSID, downgrades the security
    field to nopass when the password is empty (Python truthiness), and formats
    the WIFI payload string. -/
def wifi (ssid password security : String) (hidden : Bool) : Except String String :=
  if ssid = "" then .error "SSID is required"
  else
    let sec := if password = "" then "nopass" else security
    let hidden_str := if hidden then "true" else "false"
    .ok ("WIFI:T:" ++ sec ++ ";S:" ++ ssid ++ ";P:" ++ password ++ ";H:" ++ hidden_str ++ ";;")

end Presets

/-- Events a BatchWorker emits through its Qt signals. -/
inductive Event where
  | progress (current total : Nat) (item : String)
  | error (msg : String)
  | finished (success failed : Nat)
deriving DecidableEq, Repr

/-- Observable outcome of a BatchWorker run: the emitted events in order and the
    list of file paths written. -/
structure RunResult where
  events : List Event
  writes : List String
deriving DecidableEq, Repr

/-- The fields of BatchWorker: items, shared config template, output directory,
    naming template (self.naming.format(index=..., content=...) modelled as a
    function of the index and the sanitized excerpt), and export format. -/
structure BatchWorker where
  items : List String
  config : QRConfig
  output_dir : String
  naming : Nat → String → String
  fmt : String

/-- Python str(e) for the ValueError raised by generate. -/
def GenError.text : GenError → String
  | .validationError m => m

/-- Python re.sub(r"[^\w\-]", "_", item[:20]): keep word characters and dashes of
    the first 20 characters, replace the rest with underscores. -/
def sanitize (s : String) : String :=
  ⟨(s.take 20).data.map fun c => if c.isAlphanum || c = '_' || c = '-' then c else '_'⟩

/-- Python str.lower, per character (the names here are ASCII). -/
def pyLower (s : String) : String :=
  ⟨s.data.map Char.toLower⟩

/-- Python str.endswith, on the underlying character lists. -/
def strEndsWith (s suff : String) : Bool :=
  suff.data.isSuffixOf s.data

/-- Filename derivation of BatchWorker.run: apply the naming template, then append
    the format extension unless the lowercased name already ends in it
    (name.lower().endswith(ext) in the source). -/
def itemName (bw : BatchWorker) (idx : Nat) (item : String) : String :=
  let name := bw.naming idx (sanitize item)
  let extension := if bw.fmt = "PNG" then ".png" else ".jpg"
  if ¬ strEndsWith (pyLower name) extension then name ++ extension else name

/-- Loop of BatchWorker.run with its accumulators; stop idx is the value of the
    cooperative _stop flag as read at the check before processing item idx
    (items are enumerated from 1). -/
def runAux (ext : Ext) (bw : BatchWorker) (stop : Nat → Bool) (total : Nat) :
    List String → Nat → Nat → Nat → RunResult
  | [], _, success, failed => ⟨[.finished success failed], []⟩
  | item :: rest, idx, success, failed =>
    if stop idx then ⟨[.finished success failed], []⟩
    else
      match QREngine.generate ext { bw.config with content := item } with
      | .ok _ =>
        let path := bw.output_dir ++ "/" ++ itemName bw idx item
        let r := runAux ext bw stop total rest (idx + 1) (success + 1) failed
        ⟨.progress idx total (item.take 40) :: r.events, path :: r.writes⟩
      | .error e =>
        let r := runAux ext bw stop total rest (idx + 1) success (failed + 1)
        ⟨.error ("Failed: " ++ item.take 30 ++ "... - " ++ e.text) ::
          .progress idx total (item.take 40) :: r.events, r.writes⟩

/-- Models BatchWorker.run. -/
def run (ext : Ext) (bw : BatchWorker) (stop : Nat → Bool) : RunResult :=
  runAux ext bw stop bw.items.length bw.items 1 0 0

/-- The cooperative stop flag of a batch that is never cancelled. -/
def noStop : Nat → Bool := fun _ => false

/-- Whether an event is a progress event. -/
def isProgress : Event → Bool
  | .progress _ _ _ => true
  | _ => false

/-- Whether generate succeeds on one batch item under the shared template. -/
def itemOk (ext : Ext) (bw : BatchWorker) (item : String) : Bool :=
  match QREngine.generate ext { bw.config with content := item } with
  | .ok _ => true
  | .error _ => false

/-- Number of items of a batch on which generate succeeds. -/
def countOk (ext : Ext) (bw : BatchWorker) (items : List String) : Nat :=
  (items.filter (itemOk ext bw)).length

/-- Number of items of a batch on which generate fails. -/
def countFail (ext : Ext) (bw : BatchWorker) (items : List String) : Nat :=
  (items.filter (fun it => !(itemOk ext bw it))).length

/-- Per-item events of an uncancelled run, before the final completion event. -/
def itemEvents (ext : Ext) (bw : BatchWorker) (total : Nat) :
    List String → Nat → List Event
  | [], _ => []
  | item :: rest, idx =>
    match QREngine.generate ext { bw.config with content := item } with
    | .ok _ => .progress idx total (item.take 40) :: itemEvents ext bw total rest (idx + 1)
    | .error e =>
      .error ("Failed: " ++ item.take 30 ++ "... - " ++ e.text) ::
        .progress idx total (item.take 40) :: itemEvents ext bw total rest (idx + 1)

/-- File paths an uncancelled run writes. -/
def itemWrites (ext : Ext) (bw : BatchWorker) : List String → Nat → List String
  | [], _ => []
  | item :: rest, idx =>
    match QREngine.generate ext { bw.config with content := item } with
    | .ok _ => (bw.output_dir ++ "/" ++ itemName bw idx item) :: itemWrites ext bw rest (idx + 1)
    | .error _ => itemWrites ext bw rest (idx + 1)

/-- One progress event per item, current index counting from idx. -/
def progressEvents (total : Nat) : List String → Nat → List Event
  | [], _ => []
  | item :: rest, idx => .progress idx total (item.take 40) :: progressEvents total rest (idx + 1)

/-- Decidable equality for Except, used to evaluate concrete engine results. -/
instance exceptDecEq {ε α : Type} [DecidableEq ε] [DecidableEq α] :
    DecidableEq (Except ε α) := fun a b =>
  match a, b with
  | .ok x, .ok y =>
    if h : x = y then .isTrue (by rw [h]) else .isFalse (by simp [h])
  | .error x, .error y =>
    if h : x = y then .isTrue (by rw [h]) else .isFalse (by simp [h])
  | .ok _, .error _ => .isFalse (by simp)
  | .error _, .ok _ => .isFalse (by simp)

/-! ### Concrete instances used by witnesses and counterexamples -/

/-- Demo external world: no files exist, the renderer yields a fixed 2-by-1
    image, colours parse to white, no logo loads. -/
def extDemo : Ext :=
  { fs := fun _ => false
    enc := fun _ => ⟨2, 1, [⟨0, 0, 0, 0⟩, ⟨255, 255, 255, 0⟩]⟩
    getrgb := fun _ => ⟨255, 255, 255⟩
    load := fun _ => none
    resample := fun img _ _ => img }

/-- Demo configuration with the dataclass defaults and non-blank content. -/
def cfgDemo : QRConfig :=
  { content := "hello", box_size := 10, error_correction := "M - 15% (Standard)",
    qr_color := "#000000", bg_color := "#ffffff", transparent_bg := false,
    auto_optimize := true, quiet_zone := true, logo_path := "" }

/-- A concrete batch: three items of which the second is blank. -/
def bwDemo : BatchWorker :=
  { items := ["alpha", "", "beta"]
    config := cfgDemo
    output_dir := "out"
    naming := fun i _ => "qr_code_" ++ toString i
    fmt := "PNG" }

/-- A stop flag first observed at the check before item 3. -/
def stopDemo : Nat → Bool := fun i => decide (3 ≤ i)

/-- External world for the C1 failing input: the logo file exists. -/
def c1Ext : Ext := { extDemo with fs := fun _ => true }

/-- The C1 failing input: fourth tier H requested, logo path set and existing. -/
def c1Cfg : QRConfig :=
  { cfgDemo with error_correction := "H - 30% (Maximum)", logo_path := "logo.png" }

/-- External world for the C2 witness: a two-pixel render, black background key. -/
def c2Ext : Ext :=
  { extDemo with
    enc := fun _ => ⟨2, 1, [⟨0, 0, 0, 7⟩, ⟨9, 9, 9, 7⟩]⟩
    getrgb := fun _ => ⟨0, 0, 0⟩ }

/-- Configuration for the C2 witness. -/
def c2Cfg : QRConfig := { cfgDemo with transparent_bg := true }

/-- Pixel of a well-formed logo with a binary alpha channel: alpha is 0 or 255
    and every channel fits in 8 bits. -/
def goodPixel (q : Pixel) : Prop :=
  (q.a = 0 ∨ q.a = 255) ∧ q.r ≤ 255 ∧ q.g ≤ 255 ∧ q.b ≤ 255

/-- goodPixel is decidable, so concrete logos can be checked by evaluation. -/
instance goodPixelDec (q : Pixel) : Decidable (goodPixel q) := by
  unfold goodPixel
  infer_instance

/-- Fully opaque pixel with 8-bit channels. -/
def opaqueGood (q : Pixel) : Prop :=
  q.a = 255 ∧ q.r ≤ 255 ∧ q.g ≤ 255 ∧ q.b ≤ 255

/-- C7 counterexample input: a one-pixel logo with partial (128) alpha. -/
def logoSoft : Image := ⟨1, 1, [⟨10, 20, 30, 128⟩]⟩

/-- A one-pixel logo with fully opaque alpha. -/
def logoOpaque : Image := ⟨1, 1, [⟨10, 20, 30, 255⟩]⟩

/-- A 10-by-10 opaque black QR image. -/
def qrDemo : Image := Image.new 10 10 ⟨0, 0, 0, 255⟩

/-- External world whose logo has partial alpha. -/
def c7Ext : Ext := { extDemo with load := fun _ => some logoSoft }

/-- External world whose logo has binary alpha. -/
def c7ExtB : Ext := { extDemo with load := fun _ => some logoOpaque }

/-- External world for C8: binary-alpha logo and a size-honouring resampler. -/
def c8Ext : Ext :=
  { extDemo with
    load := fun _ => some logoOpaque
    resample := fun _ nw2 nh2 => Image.new nw2 nh2 ⟨255, 255, 255, 255⟩ }

/-! ### Theorems -/

/-- Structure of an uncancelled run: the per-item events followed by the single
    completion event carrying the accumulated counts, and the per-item writes. -/
theorem runAux_noStop_eq (ext : Ext) (bw : BatchWorker) (total : Nat) :
    ∀ (items : List String) (idx s f : Nat),
      runAux ext bw noStop total items idx s f =
        ⟨itemEvents ext bw total items idx ++
          [.finished (s + countOk ext bw items) (f + countFail ext bw items)],
         itemWrites ext bw items idx⟩ := by
  intro items
  induction items with
  | nil => intro idx s f; simp [runAux, itemEvents, itemWrites, countOk, countFail]
  | cons item rest ih =>
    intro idx s f
    cases h : QREngine.generate ext { bw.config with content := item } with
    | ok img =>
      have hok : itemOk ext bw item = true := by simp [itemOk, h]
      simp [runAux, noStop, h, ih, itemEvents, itemWrites, countOk, countFail,
        List.filter_cons, hok]
      omega
    | error e =>
      have hok : itemOk ext bw item = false := by simp [itemOk, h]
      simp [runAux, noStop, h, ih, itemEvents, itemWrites, countOk, countFail,
        List.filter_cons, hok]
      omega

/-- Filtering the per-item events for progress yields one event per item. -/
theorem itemEvents_filter_progress (ext : Ext) (bw : BatchWorker) (total : Nat) :
    ∀ (items : List String) (idx : Nat),
      (itemEvents ext bw total items idx).filter isProgress =
        progressEvents total items idx := by
  intro items
  induction items with
  | nil => intro idx; simp [itemEvents, progressEvents]
  | cons item rest ih =>
    intro idx
    cases h : QREngine.generate ext { bw.config with content := item } with
    | ok img => simp [itemEvents, progressEvents, h, ih, isProgress]
    | error e => simp [itemEvents, progressEvents, h, ih, isProgress]

/-- progressEvents has exactly one event per item. -/
theorem progressEvents_length (total : Nat) :
    ∀ (items : List String) (idx : Nat),
      (progressEvents total items idx).length = items.length := by
  intro items
  induction items with
  | nil => intro idx; simp [progressEvents]
  | cons item rest ih => intro idx; simp [progressEvents, ih]

/-- Every item either succeeds or fails: the two counters sum to the item count. -/
theorem countOk_add_countFail (ext : Ext) (bw : BatchWorker) :
    ∀ items : List String,
      countOk ext bw items + countFail ext bw items = items.length := by
  intro items
  induction items with
  | nil => simp [countOk, countFail]
  | cons item rest ih =>
    by_cases h : itemOk ext bw item = true
    · simp [countOk, countFail, List.filter_cons, h] at ih ⊢
      omega
    · simp only [Bool.not_eq_true] at h
      simp [countOk, countFail, List.filter_cons, h] at ih ⊢
      omega

/-- A run whose stop flag first reads true at the check before item k behaves
    exactly like an uncancelled run over the items before k. -/
theorem runAux_stop_take (ext : Ext) (bw : BatchWorker) (stop : Nat → Bool) (total k : Nat)
    (hstop : stop k = true) :
    ∀ (items : List String) (idx s f : Nat),
      (∀ j, idx ≤ j → j < k → stop j = false) →
      idx ≤ k → k - idx ≤ items.length →
      runAux ext bw stop total items idx s f =
        runAux ext bw noStop total (items.take (k - idx)) idx s f := by
  intro items
  induction items with
  | nil =>
    intro idx s f hmin hik hlen
    have h0 : k - idx = 0 := by
      simp only [List.length_nil] at hlen
      omega
    rw [h0]
    simp [runAux]
  | cons item rest ih =>
    intro idx s f hmin hik hlen
    simp only [List.length_cons] at hlen
    rcases Nat.eq_or_lt_of_le hik with heq | hlt
    · have h0 : k - idx = 0 := by omega
      have hsidx : stop idx = true := by rw [heq]; exact hstop
      rw [h0]
      simp [runAux, hsidx]
    · have hfalse : stop idx = false := hmin idx le_rfl hlt
      have hsucc : k - idx = (k - (idx + 1)) + 1 := by omega
      rw [hsucc, List.take_succ_cons]
      have ihr := fun s' f' => ih (idx + 1) s' f'
        (fun j hj1 hj2 => hmin j (by omega) hj2) (by omega) (by omega)
      cases h : QREngine.generate ext { bw.config with content := item } with
      | ok img => simp [runAux, noStop, hfalse, h, ihr (s + 1) f]
      | error e => simp [runAux, noStop, hfalse, h, ihr s (f + 1)]

/-- C5: an uncancelled batch run emits exactly one progress event per item
    (current index and truncated text included) regardless of per-item success,
    a failing item does not stop the processing of later items, and the single
    final completion event reports counts with success + failed equal to the
    total number of items. -/
theorem c5_batch_partial_failure_semantics (ext : Ext) (bw : BatchWorker) :
    (run ext bw noStop).events =
      itemEvents ext bw bw.items.length bw.items 1 ++
        [.finished (countOk ext bw bw.items) (countFail ext bw bw.items)] ∧
    (run ext bw noStop).events.filter isProgress =
      progressEvents bw.items.length bw.items 1 ∧
    (progressEvents bw.items.length bw.items 1).length = bw.items.length ∧
    (run ext bw noStop).events.getLast? =
      some (.finished (countOk ext bw bw.items) (countFail ext bw bw.items)) ∧
    countOk ext bw bw.items + countFail ext bw bw.items = bw.items.length := by
  have hrun := runAux_noStop_eq ext bw bw.items.length bw.items 1 0 0
  have hev : (run ext bw noStop).events =
      itemEvents ext bw bw.items.length bw.items 1 ++
        [.finished (countOk ext bw bw.items) (countFail ext bw bw.items)] := by
    rw [run, hrun]
    simp
  refine ⟨hev, ?_, progressEvents_length _ _ _, ?_, countOk_add_countFail ext bw bw.items⟩
  · rw [hev]
    simp [List.filter_append, itemEvents_filter_progress, isProgress]
  · rw [hev]
    simp [List.getLast?_concat]

/-- C4: when the cooperative stop flag is first observed at the check before
    item k, the run equals the uncancelled run over the first k - 1 items: no
    later item is processed or written, the final completion event still fires,
    and its counts satisfy success + failed = k - 1, the number of items
    processed before the stop was observed. -/
theorem c4_stop_flag_early_exit (ext : Ext) (bw : BatchWorker) (stop : Nat → Bool) (k : Nat)
    (hk1 : 1 ≤ k) (hk2 : k ≤ bw.items.length + 1) (hstop : stop k = true)
    (hmin : ∀ j, 1 ≤ j → j < k → stop j = false) :
    run ext bw stop =
      runAux ext bw noStop bw.items.length (bw.items.take (k - 1)) 1 0 0 ∧
    (run ext bw stop).writes = itemWrites ext bw (bw.items.take (k - 1)) 1 ∧
    (run ext bw stop).events.getLast? =
      some (.finished (countOk ext bw (bw.items.take (k - 1)))
        (countFail ext bw (bw.items.take (k - 1)))) ∧
    countOk ext bw (bw.items.take (k - 1)) + countFail ext bw (bw.items.take (k - 1)) =
      (bw.items.take (k - 1)).length ∧
    ((run ext bw stop).events.filter isProgress).length = (bw.items.take (k - 1)).length := by
  have htake : run ext bw stop =
      runAux ext bw noStop bw.items.length (bw.items.take (k - 1)) 1 0 0 := by
    rw [run]
    have := runAux_stop_take ext bw stop bw.items.length k hstop bw.items 1 0 0
      (by intro j hj1 hj2; exact hmin j hj1 hj2) (by omega) (by omega)
    simpa using this
  have hrun := runAux_noStop_eq ext bw bw.items.length (bw.items.take (k - 1)) 1 0 0
  refine ⟨htake, ?_, ?_, countOk_add_countFail ext bw _, ?_⟩
  · rw [htake, hrun]
  · rw [htake, hrun]
    simp [List.getLast?_concat]
  · rw [htake, hrun]
    simp [List.filter_append, itemEvents_filter_progress, isProgress,
      progressEvents_length]

/-- Witness for C4: stopping the three-item batch at the check before item 3
    processes exactly the first two items. -/
theorem c4_witness :
    run extDemo bwDemo stopDemo =
      runAux extDemo bwDemo noStop bwDemo.items.length (bwDemo.items.take (3 - 1)) 1 0 0 ∧
    (run extDemo bwDemo stopDemo).writes =
      itemWrites extDemo bwDemo (bwDemo.items.take (3 - 1)) 1 ∧
    (run extDemo bwDemo stopDemo).events.getLast? =
      some (.finished (countOk extDemo bwDemo (bwDemo.items.take (3 - 1)))
        (countFail extDemo bwDemo (bwDemo.items.take (3 - 1)))) ∧
    countOk extDemo bwDemo (bwDemo.items.take (3 - 1)) +
        countFail extDemo bwDemo (bwDemo.items.take (3 - 1)) =
      (bwDemo.items.take (3 - 1)).length ∧
    ((run extDemo bwDemo stopDemo).events.filter isProgress).length =
      (bwDemo.items.take (3 - 1)).length :=
  c4_stop_flag_early_exit extDemo bwDemo stopDemo 3 (by decide) (by decide) (by decide)
    (fun j h1 h2 => by simp [stopDemo]; omega)

set_option maxRecDepth 8192 in
/-- Sanity evaluation of the embedded worker on the demo batch: the blank second
    item fails, later items still run, one progress event per item, counts 2/1. -/
theorem run_demo_three_items :
    run extDemo bwDemo noStop =
      ⟨[.progress 1 3 "alpha",
        .error "Failed: ... - Content cannot be empty", .progress 2 3 "",
        .progress 3 3 "beta",
        .finished 2 1],
       ["out/qr_code_1.png", "out/qr_code_3.png"]⟩ := by
  decide

/-! ### C3: blank content raises the validation error -/

/-- C3: for every configuration, generate fails with the validation error when
    the content is blank (empty or whitespace-only), for any values of the other
    fields, and for non-blank content it does not fail on this check. -/
theorem c3_blank_content_validation (ext : Ext) (cfg : QRConfig) :
    (isBlank cfg.content = true →
      QREngine.generate ext cfg = .error (.validationError "Content cannot be empty")) ∧
    (isBlank cfg.content = false →
      ∃ img, QREngine.generate ext cfg = .ok img) := by
  constructor
  · intro h
    simp [QREngine.generate, h]
  · intro h
    unfold QREngine.generate
    rw [if_neg (by simp [h])]
    exact ⟨_, rfl⟩

/-- Witness for C3 at whitespace-only and at non-blank content. -/
theorem c3_witness :
    QREngine.generate extDemo { cfgDemo with content := "  \t " } =
      .error (.validationError "Content cannot be empty") ∧
    ∃ img, QREngine.generate extDemo cfgDemo = .ok img :=
  ⟨(c3_blank_content_validation extDemo { cfgDemo with content := "  \t " }).1 (by decide),
   (c3_blank_content_validation extDemo cfgDemo).2 (by decide)⟩

/-! ### C9: the WiFi preset -/

/-- C9: Presets.wifi fails exactly on an empty SSID and otherwise formats the
    WIFI payload, downgrading the security field to nopass whenever the password
    is empty regardless of the requested security; in particular
    wifi "HomeNet" "" "WPA" false yields the downgraded payload. -/
theorem c9_wifi_format (ssid password security : String) (hidden : Bool) :
    (ssid = "" → Presets.wifi ssid password security hidden = .error "SSID is required") ∧
    (ssid ≠ "" →
      Presets.wifi ssid password security hidden =
        .ok ("WIFI:T:" ++ (if password = "" then "nopass" else security) ++ ";S:" ++ ssid ++
          ";P:" ++ password ++ ";H:" ++ (if hidden then "true" else "false") ++ ";;")) ∧
    Presets.wifi "HomeNet" "" "WPA" false = .ok "WIFI:T:nopass;S:HomeNet;P:;H:false;;" := by
  refine ⟨?_, ?_, by decide⟩
  · intro h
    simp [Presets.wifi, h]
  · intro h
    simp [Presets.wifi, h]

/-- Witness for C9 at an empty and at a non-empty SSID. -/
theorem c9_witness :
    Presets.wifi "" "pw" "WPA" true = .error "SSID is required" ∧
    Presets.wifi "HomeNet" "secret" "WPA" true =
      .ok "WIFI:T:WPA;S:HomeNet;P:secret;H:true;;" :=
  ⟨(c9_wifi_format "" "pw" "WPA" true).1 rfl,
   ((c9_wifi_format "HomeNet" "secret" "WPA" true).2.1 (by decide)).trans (by decide)⟩

/-! ### C10: unrecognized error-correction strings fall back to M -/

/-- C10: when the error_correction string is none of the four recognized labels,
    the lookup silently falls back to ERROR_CORRECT_M (so, without a logo, the
    resolved constant is M) and generate does not raise on that field. -/
theorem c10_unknown_ecc_falls_back_to_M (ext : Ext) (cfg : QRConfig)
    (h : ERROR_LEVELS cfg.error_correction = none) :
    eccLookup cfg = ERROR_CORRECT_M ∧
    ((cfg.logo_path = "" ∨ ext.fs cfg.logo_path = false) →
      resolveEcc ext cfg = ERROR_CORRECT_M) ∧
    (isBlank cfg.content = false → ∃ img, QREngine.generate ext cfg = .ok img) := by
  have h1 : eccLookup cfg = ERROR_CORRECT_M := by simp [eccLookup, h]
  refine ⟨h1, ?_, ?_⟩
  · intro hl
    rcases hl with hl | hl <;> simp [resolveEcc, hl, h1]
  · intro hb
    unfold QREngine.generate
    rw [if_neg (by simp [hb])]
    exact ⟨_, rfl⟩

/-- Witness for C10 at the unrecognized label "bogus". -/
theorem c10_witness :
    eccLookup { cfgDemo with error_correction := "bogus" } = ERROR_CORRECT_M ∧
    resolveEcc extDemo { cfgDemo with error_correction := "bogus" } = ERROR_CORRECT_M ∧
    ∃ img, QREngine.generate extDemo { cfgDemo with error_correction := "bogus" } = .ok img := by
  have h := c10_unknown_ecc_falls_back_to_M extDemo
    { cfgDemo with error_correction := "bogus" } (by decide)
  exact ⟨h.1, h.2.1 (Or.inl rfl), h.2.2 (by decide)⟩

/-! ### C1: the logo ECC bump downgrades a requested H to Q -/

/-- C1: evaluating the code at the failing input: with a logo present, a request
    for the fourth tier H resolves to ERROR_CORRECT_Q — the qrcode constants
    (L=1, M=0, Q=3, H=2) are not ordered by redundancy, so the guard
    ecc < ERROR_CORRECT_Q also fires for H and downgrades it to the third tier,
    contradicting the claim that the resulting tier is never lower than the
    requested tier. -/
theorem c1_logo_downgrades_H_to_Q :
    resolveEcc c1Ext c1Cfg = ERROR_CORRECT_Q ∧
    tierOf (resolveEcc c1Ext c1Cfg) < tierOf (eccLookup c1Cfg) := by
  constructor <;> decide

/-! ### C6: add_logo swallows logo failures -/

/-- C6: when the logo cannot be opened or decoded, add_logo returns the QR image
    unchanged instead of failing the generation (the embedding is total, so no
    exception can escape). -/
theorem c6_add_logo_unreadable_unchanged (ext : Ext) (img : Image) (p : String)
    (h : ext.load p = none) :
    QREngine.add_logo ext img p = img := by
  unfold QREngine.add_logo QREngine.logoAfterThumb
  simp [h]

/-- Witness for C6: the demo world loads no logo. -/
theorem c6_witness :
    QREngine.add_logo extDemo (Image.new 2 2 ⟨0, 0, 0, 255⟩) "logo.png" =
      Image.new 2 2 ⟨0, 0, 0, 255⟩ :=
  c6_add_logo_unreadable_unchanged extDemo (Image.new 2 2 ⟨0, 0, 0, 255⟩) "logo.png" rfl

/-! ### C2: exact background keying -/

/-- The zero-tolerance guard of applyTransparency is exact RGB equality. -/
theorem applyTransparency_eq (bg : RGB) (img : Image) :
    QREngine.applyTransparency bg img =
      { img with data := img.data.map fun p =>
          if p.r = bg.r ∧ p.g = bg.g ∧ p.b = bg.b then ⟨255, 255, 255, 0⟩ else p } := by
  unfold QREngine.applyTransparency
  simp only []
  congr 1
  apply List.map_congr_left
  intro p _
  have e1 : (Nat.dist p.r bg.r ≤ 0 ∧ Nat.dist p.g bg.g ≤ 0 ∧ Nat.dist p.b bg.b ≤ 0) ↔
      (p.r = bg.r ∧ p.g = bg.g ∧ p.b = bg.b) := by
    unfold Nat.dist
    omega
  simp only [e1]

/-- C2: with transparent_bg set (and no logo applied afterwards), generate
    replaces exactly those pixels of the rendered opaque image whose RGB equals
    the configured background colour — zero tolerance — by fully transparent
    white (255,255,255,0) and keeps every other pixel unchanged; the rendered
    image is fully opaque, so unchanged pixels keep alpha 255. -/
theorem c2_transparency_exact_keying (ext : Ext) (cfg : QRConfig)
    (ht : cfg.transparent_bg = true)
    (hb : isBlank cfg.content = false)
    (hl : cfg.logo_path = "" ∨ ext.fs cfg.logo_path = false) :
    (∀ p ∈ (QREngine.renderedImage ext cfg).data, p.a = 255) ∧
    QREngine.generate ext cfg = .ok
      { QREngine.renderedImage ext cfg with
        data := (QREngine.renderedImage ext cfg).data.map fun p =>
          if p.r = (ext.getrgb cfg.bg_color).r ∧ p.g = (ext.getrgb cfg.bg_color).g ∧
              p.b = (ext.getrgb cfg.bg_color).b then ⟨255, 255, 255, 0⟩ else p } := by
  constructor
  · intro p hp
    simp only [QREngine.renderedImage, convertRGBA, List.mem_map] at hp
    obtain ⟨q, -, rfl⟩ := hp
    rfl
  · rcases hl with hl | hl <;>
      simp [QREngine.generate, hb, ht, hl, applyTransparency_eq]

/-- Witness for C2: the matching pixel becomes transparent white, the other keeps
    its RGB and full opacity. -/
theorem c2_witness :
    (∀ p ∈ (QREngine.renderedImage c2Ext c2Cfg).data, p.a = 255) ∧
    QREngine.generate c2Ext c2Cfg =
      .ok ⟨2, 1, [⟨255, 255, 255, 0⟩, ⟨9, 9, 9, 255⟩]⟩ := by
  have h := c2_transparency_exact_keying c2Ext c2Cfg rfl (by decide) (Or.inl rfl)
  exact ⟨h.1, h.2.trans (by decide)⟩

/-! ### Pixel-level infrastructure for the add_logo claims -/

/-- Row-major index of an in-bounds coordinate is within the data length. -/
theorem index_lt (w h x y : Nat) (hx : x < w) (hy : y < h) : y * w + x < w * h :=
  calc y * w + x < y * w + w := by omega
  _ = (y + 1) * w := by ring
  _ ≤ h * w := Nat.mul_le_mul_right w (Nat.succ_le_of_lt hy)
  _ = w * h := Nat.mul_comm h w

/-- In-bounds pixels of a pasteMask result are given by pasteCalc. -/
theorem pasteMask_pixel (dst src : Image) (px py : Int) (x y : Nat)
    (hx : x < dst.width) (hy : y < dst.height) :
    (pasteMask dst src px py).pixel x y = pasteCalc dst src px py x y := by
  have hw : 0 < dst.width := by omega
  have hidx : y * dst.width + x < dst.width * dst.height := index_lt _ _ _ _ hx hy
  have hmod : (y * dst.width + x) % dst.width = x := by
    rw [Nat.mul_comm y dst.width, Nat.mul_add_mod, Nat.mod_eq_of_lt hx]
  have hdiv : (y * dst.width + x) / dst.width = y := by
    rw [Nat.mul_comm y dst.width, Nat.mul_add_div hw, Nat.div_eq_of_lt hx, Nat.add_zero]
  unfold Image.pixel pasteMask
  simp only [List.getD_eq_getElem?_getD, List.getElem?_map, List.getElem?_range hidx,
    Option.map_some', Option.getD_some, hmod, hdiv]

/-- In-bounds pixels of a solid image are the fill colour. -/
theorem new_pixel (w h : Nat) (c : Pixel) (x y : Nat) (hx : x < w) (hy : y < h) :
    (Image.new w h c).pixel x y = c := by
  have hidx : y * w + x < w * h := index_lt _ _ _ _ hx hy
  show (List.replicate (w * h) c).getD (y * w + x) ⟨0, 0, 0, 0⟩ = c
  rw [List.getD_eq_getElem?_getD, List.getElem?_replicate_of_lt hidx, Option.getD_some]

/-- muldiv255 with factor 0 vanishes. -/
theorem muldiv255_zero (a : Nat) : muldiv255 a 0 = 0 := by
  simp [muldiv255]

set_option maxRecDepth 8192 in
/-- muldiv255 with factor 255 is the identity on 8-bit values. -/
theorem muldiv255_full : ∀ a, a ≤ 255 → muldiv255 a 255 = a := by decide

/-- Blending with a fully opaque mask returns the source channel. -/
theorem blendChannel_full (d s : Nat) (hs : s ≤ 255) : blendChannel 255 d s = s := by
  unfold blendChannel
  rw [Nat.sub_self, muldiv255_zero, muldiv255_full s hs, Nat.zero_add]

/-- Blending with a fully transparent mask returns the destination channel. -/
theorem blendChannel_zero (d s : Nat) (hd : d ≤ 255) : blendChannel 0 d s = d := by
  unfold blendChannel
  rw [Nat.sub_zero, muldiv255_zero, muldiv255_full d hd, Nat.add_zero]

/-- Pixel blend under a fully opaque mask returns the source pixel. -/
theorem blendPixel_full (d s : Pixel) (hr : s.r ≤ 255) (hg : s.g ≤ 255)
    (hb : s.b ≤ 255) (ha : s.a ≤ 255) : blendPixel 255 d s = s := by
  cases s
  simp_all [blendPixel, blendChannel_full]

/-- Pixel blend under a fully transparent mask returns the destination pixel. -/
theorem blendPixel_zero (d s : Pixel) (hr : d.r ≤ 255) (hg : d.g ≤ 255)
    (hb : d.b ≤ 255) (ha : d.a ≤ 255) : blendPixel 0 d s = d := by
  cases d
  simp_all [blendPixel, blendChannel_zero]

/-- Every pixel access of an image with good data is good (the out-of-range
    default pixel is good as well). -/
theorem pixel_good_of_data {l2 : Image} (h : ∀ q ∈ l2.data, goodPixel q) (x y : Nat) :
    goodPixel (l2.pixel x y) := by
  unfold Image.pixel
  rw [List.getD_eq_getElem?_getD]
  rcases hg : l2.data[y * l2.width + x]? with _ | q
  · exact ⟨Or.inl rfl, by simp, by simp, by simp⟩
  · exact h q (List.getElem?_mem hg)

/-- The white pad with the logo pasted through its own binary alpha is fully
    opaque with 8-bit channels at every in-bounds pixel. -/
theorem logoPad_opaque {l2 : Image} (h : ∀ q ∈ l2.data, goodPixel q) (x y : Nat)
    (hx : x < l2.width + 8) (hy : y < l2.height + 8) :
    opaqueGood ((QREngine.logoPad l2).pixel x y) := by
  unfold QREngine.logoPad
  rw [pasteMask_pixel _ _ _ _ x y hx hy]
  unfold pasteCalc
  have hwhite : (Image.new (l2.width + 8) (l2.height + 8) ⟨255, 255, 255, 255⟩).pixel x y =
      ⟨255, 255, 255, 255⟩ := new_pixel _ _ _ x y hx hy
  split_ifs with hreg
  · have hgood := pixel_good_of_data h ((x : Int) - 4).toNat ((y : Int) - 4).toNat
    rcases hgood with ⟨ha | ha, hr, hg, hb⟩
    · rw [ha, blendPixel_zero _ _ (by rw [hwhite]) (by rw [hwhite]) (by rw [hwhite])
        (by rw [hwhite]), hwhite]
      exact ⟨rfl, le_rfl, le_rfl, le_rfl⟩
    · rw [ha, blendPixel_full _ _ hr hg hb (by rw [ha])]
      exact ⟨ha, hr, hg, hb⟩
  · rw [hwhite]
    exact ⟨rfl, le_rfl, le_rfl, le_rfl⟩

/-- Pasting a fully opaque pad twice at the same position is the same as pasting
    it once: the covered pixels are plainly replaced. -/
theorem pasteMask_opaque_idem (qr pad : Image) (px py : Int)
    (hpad : ∀ x y, x < pad.width → y < pad.height → opaqueGood (pad.pixel x y)) :
    pasteMask (pasteMask qr pad px py) pad px py = pasteMask qr pad px py := by
  show (⟨qr.width, qr.height, (List.range (qr.width * qr.height)).map fun i =>
      pasteCalc (pasteMask qr pad px py) pad px py (i % qr.width) (i / qr.width)⟩ : Image) =
    ⟨qr.width, qr.height, (List.range (qr.width * qr.height)).map fun i =>
      pasteCalc qr pad px py (i % qr.width) (i / qr.width)⟩
  congr 1
  apply List.map_congr_left
  intro i hi
  rw [List.mem_range] at hi
  have hw : 0 < qr.width := by
    rcases Nat.eq_zero_or_pos qr.width with h0 | h0
    · rw [h0] at hi; omega
    · exact h0
  have hx : i % qr.width < qr.width := Nat.mod_lt _ hw
  have hy : i / qr.width < qr.height := Nat.div_lt_of_lt_mul hi
  unfold pasteCalc
  by_cases hreg : 0 ≤ ((i % qr.width : Nat) : Int) - px ∧
      ((i % qr.width : Nat) : Int) - px < (pad.width : Int) ∧
      0 ≤ ((i / qr.width : Nat) : Int) - py ∧
      ((i / qr.width : Nat) : Int) - py < (pad.height : Int)
  · obtain ⟨h1, h2, h3, h4⟩ := hreg
    have hsx : (((i % qr.width : Nat) : Int) - px).toNat < pad.width := by omega
    have hsy : (((i / qr.width : Nat) : Int) - py).toNat < pad.height := by omega
    obtain ⟨ha, hr, hg, hb⟩ := hpad _ _ hsx hsy
    rw [if_pos ⟨h1, h2, h3, h4⟩, if_pos ⟨h1, h2, h3, h4⟩, ha,
      blendPixel_full _ _ hr hg hb (by rw [ha]), blendPixel_full _ _ hr hg hb (by rw [ha])]
  · rw [if_neg hreg, if_neg hreg, pasteMask_pixel qr pad px py _ _ hx hy]
    unfold pasteCalc
    rw [if_neg hreg]

/-- The size selected by thumbnail for a square target never exceeds the target
    edge in either axis. -/
theorem thumbnailSize_le (w h m nw nh : Nat)
    (hs : thumbnailSize w h m m = some (nw, nh)) : nw ≤ m ∧ nh ≤ m := by
  unfold thumbnailSize at hs
  split_ifs at hs with h1 h2 h3 h4
  · simp only [Option.some.injEq, Prod.mk.injEq] at hs
    obtain ⟨e1, e2⟩ := hs
    omega
  · simp only [Option.some.injEq, Prod.mk.injEq] at hs
    obtain ⟨e1, e2⟩ := hs
    have hm1 : 0 < m := Nat.pos_of_ne_zero h3
    have hh1 : 0 < h := Nat.pos_of_ne_zero h2
    have hwm : w * m ≤ h * m := by
      rw [Nat.mul_comm h m]
      exact h4
    have hwh : w ≤ h := Nat.le_of_mul_le_mul_right hwm hm1
    have hmw_le : m * w ≤ m * h := Nat.mul_le_mul_left m hwh
    have hfl : m * w / h ≤ m := by
      calc m * w / h ≤ m * h / h := Nat.div_le_div_right hmw_le
      _ = m := Nat.mul_div_cancel m hh1
    have hce : cdiv (m * w) h ≤ m := by
      unfold cdiv
      have h6 : m * w ≤ h * m := by rw [Nat.mul_comm h m]; exact hmw_le
      calc (m * w + h - 1) / h ≤ (h * m + (h - 1)) / h := Nat.div_le_div_right (by omega)
      _ = m + (h - 1) / h := Nat.mul_add_div hh1 m (h - 1)
      _ = m := by rw [Nat.div_eq_of_lt (by omega), Nat.add_zero]
    constructor
    · rw [← e1]
      unfold roundAspectWidth
      simp only []
      apply max_le _ hm1
      split_ifs <;> first | exact hfl | exact hce
    · omega
  · simp only [Option.some.injEq, Prod.mk.injEq] at hs
    obtain ⟨e1, e2⟩ := hs
    have hm1 : 0 < m := Nat.pos_of_ne_zero h3
    have hh1 : 0 < h := Nat.pos_of_ne_zero h2
    have h4' : m * h < w * m := Nat.lt_of_not_le h4
    have hw1 : 0 < w := by
      rcases Nat.eq_zero_or_pos w with rfl | hw1
      · simp at h4'
      · exact hw1
    have hhw : h ≤ w := by
      have hcm : h * m < w * m := by rw [Nat.mul_comm m h] at h4'; exact h4'
      exact le_of_lt (Nat.lt_of_mul_lt_mul_right hcm)
    have hmh_le : m * h ≤ m * w := Nat.mul_le_mul_left m hhw
    have hfl : m * h / w ≤ m := by
      calc m * h / w ≤ m * w / w := Nat.div_le_div_right hmh_le
      _ = m := Nat.mul_div_cancel m hw1
    have hce : cdiv (m * h) w ≤ m := by
      unfold cdiv
      have h6 : m * h ≤ w * m := by rw [Nat.mul_comm w m]; exact hmh_le
      calc (m * h + w - 1) / w ≤ (w * m + (w - 1)) / w := Nat.div_le_div_right (by omega)
      _ = m + (w - 1) / w := Nat.mul_add_div hw1 m (w - 1)
      _ = m := by rw [Nat.div_eq_of_lt (by omega), Nat.add_zero]
    constructor
    · omega
    · rw [← e2]
      unfold roundAspectHeight
      simp only []
      apply max_le _ hm1
      split_ifs <;> first | exact hfl | exact hce

/-- logoAfterThumb depends on the QR image only through its dimensions. -/
theorem logoAfterThumb_dims (ext : Ext) (p : String) (a b : Image)
    (hw : a.width = b.width) (hh : a.height = b.height) :
    QREngine.logoAfterThumb ext a p = QREngine.logoAfterThumb ext b p := by
  unfold QREngine.logoAfterThumb
  rw [hw, hh]

/-- When the thumbnail step succeeds, add_logo is the centred masked paste of the
    padded logo. -/
theorem add_logo_eq_of_some (ext : Ext) (X : Image) (p : String) (l2 : Image)
    (h : QREngine.logoAfterThumb ext X p = some l2) :
    QREngine.add_logo ext X p =
      pasteMask X (QREngine.logoPad l2)
        (QREngine.padPos X.width X.height (QREngine.logoPad l2).width
          (QREngine.logoPad l2).height).1
        (QREngine.padPos X.width X.height (QREngine.logoPad l2).width
          (QREngine.logoPad l2).height).2 := by
  unfold QREngine.add_logo
  rw [h]

/-- C8: whenever add_logo actually pastes an overlay, the thumbnailed logo fits
    within int(min(w, h) * 0.22) in both axes (so its larger dimension never
    exceeds 22 percent of the smaller QR dimension), the white pad adds exactly
    4 pixels of border on each side, and the pad is pasted centred with Python
    floor division; the resampler is only assumed to honour the requested size. -/
theorem c8_logo_overlay_bounds (ext : Ext) (qr : Image) (p : String) (l2 : Image)
    (hres : ∀ img nw2 nh2, (ext.resample img nw2 nh2).width = nw2 ∧
      (ext.resample img nw2 nh2).height = nh2)
    (hsome : QREngine.logoAfterThumb ext qr p = some l2) :
    max l2.width l2.height ≤ 22 * min qr.width qr.height / 100 ∧
    (QREngine.logoPad l2).width = l2.width + 8 ∧
    (QREngine.logoPad l2).height = l2.height + 8 ∧
    QREngine.add_logo ext qr p =
      pasteMask qr (QREngine.logoPad l2)
        (Int.fdiv ((qr.width : Int) - ((l2.width + 8 : Nat) : Int)) 2)
        (Int.fdiv ((qr.height : Int) - ((l2.height + 8 : Nat) : Int)) 2) := by
  have hsome0 := hsome
  unfold QREngine.logoAfterThumb at hsome
  rcases hload : ext.load p with _ | logo
  · rw [hload] at hsome
    simp at hsome
  · rw [hload] at hsome
    simp only [] at hsome
    rcases hts : thumbnailSize logo.width logo.height
        (22 * min qr.width qr.height / 100) (22 * min qr.width qr.height / 100) with _ | nwh
    · rw [hts] at hsome
      simp at hsome
    · obtain ⟨nw, nh⟩ := nwh
      rw [hts] at hsome
      simp only [Option.some.injEq] at hsome
      have hdims : l2.width = nw ∧ l2.height = nh := by
        by_cases hc : nw = logo.width ∧ nh = logo.height
        · rw [if_pos hc] at hsome
          rw [← hsome]
          exact ⟨hc.1.symm, hc.2.symm⟩
        · rw [if_neg hc] at hsome
          rw [← hsome]
          exact hres logo nw nh
      have hbound := thumbnailSize_le _ _ _ _ _ hts
      refine ⟨?_, rfl, rfl, ?_⟩
      · rw [hdims.1, hdims.2]
        exact max_le hbound.1 hbound.2
      · exact add_logo_eq_of_some ext qr p l2 hsome0

set_option maxRecDepth 8192 in
/-- C7 counterexample: with a logo of partial alpha, applying add_logo twice
    blends the translucent pixel a second time, so the result is not
    pixel-identical to a single application — add_logo as implemented is not
    idempotent for every logo. -/
theorem c7_counterexample :
    QREngine.add_logo c7Ext (QREngine.add_logo c7Ext qrDemo "logo.png") "logo.png" ≠
      QREngine.add_logo c7Ext qrDemo "logo.png" := by
  decide

/-- C7 amended: add_logo is idempotent for every QR image and logo whose pixels,
    after the thumbnail step, are 8-bit with binary alpha (fully opaque or fully
    transparent, as in typical logos without soft edges): the padded overlay is
    then fully opaque and a second paste plainly re-writes identical pixels. -/
theorem c7_amended_idempotent_binary_alpha (ext : Ext) (qr : Image) (p : String)
    (hbin : ∀ l2, QREngine.logoAfterThumb ext qr p = some l2 →
      ∀ q ∈ l2.data, goodPixel q) :
    QREngine.add_logo ext (QREngine.add_logo ext qr p) p =
      QREngine.add_logo ext qr p := by
  rcases hthumb : QREngine.logoAfterThumb ext qr p with _ | l2
  · have h1 : QREngine.add_logo ext qr p = qr := by
      unfold QREngine.add_logo
      rw [hthumb]
    rw [h1]
    exact h1
  · have hJ := add_logo_eq_of_some ext qr p l2 hthumb
    have hw2 : (QREngine.add_logo ext qr p).width = qr.width := by rw [hJ]; rfl
    have hh2 : (QREngine.add_logo ext qr p).height = qr.height := by rw [hJ]; rfl
    have hthumb2 : QREngine.logoAfterThumb ext (QREngine.add_logo ext qr p) p = some l2 :=
      (logoAfterThumb_dims ext p _ qr hw2 hh2).trans hthumb
    have hK := add_logo_eq_of_some ext (QREngine.add_logo ext qr p) p l2 hthumb2
    have hpadgood : ∀ x y, x < (QREngine.logoPad l2).width →
        y < (QREngine.logoPad l2).height →
        opaqueGood ((QREngine.logoPad l2).pixel x y) := fun x y hx hy =>
      logoPad_opaque (hbin l2 hthumb) x y hx hy
    rw [hK, hJ]
    exact pasteMask_opaque_idem qr (QREngine.logoPad l2) _ _ hpadgood

/-- Witness for the amended C7 at a concrete binary-alpha logo. -/
theorem c7_witness :
    QREngine.add_logo c7ExtB (QREngine.add_logo c7ExtB qrDemo "logo.png") "logo.png" =
      QREngine.add_logo c7ExtB qrDemo "logo.png" :=
  c7_amended_idempotent_binary_alpha c7ExtB qrDemo "logo.png"
    (by
      intro l2 h
      have he : QREngine.logoAfterThumb c7ExtB qrDemo "logo.png" = some logoOpaque := by
        decide
      rw [he] at h
      injection h with h'
      rw [← h']
      decide)

/-- Witness for C8 at a concrete readable logo. -/
theorem c8_witness :
    max logoOpaque.width logoOpaque.height ≤ 22 * min qrDemo.width qrDemo.height / 100 ∧
    (QREngine.logoPad logoOpaque).width = logoOpaque.width + 8 ∧
    (QREngine.logoPad logoOpaque).height = logoOpaque.height + 8 ∧
    QREngine.add_logo c8Ext qrDemo "logo.png" =
      pasteMask qrDemo (QREngine.logoPad logoOpaque)
        (Int.fdiv ((qrDemo.width : Int) - ((logoOpaque.width + 8 : Nat) : Int)) 2)
        (Int.fdiv ((qrDemo.height : Int) - ((logoOpaque.height + 8 : Nat) : Int)) 2) :=
  c8_logo_overlay_bounds c8Ext qrDemo "logo.png" logoOpaque
    (fun img nw2 nh2 => ⟨rfl, rfl⟩) (by decide)

end QRGenPro
